import Mathlib

set_option maxRecDepth 16384

/-!
Shallow embedding of the Stellar-Market-Identity insurance contracts
(risk pool, claims lifecycle, authorization substrate, oracle consensus
resolver) and proofs about their specification.

The Rust source is a collection of Soroban smart contracts.  We model
contract storage as explicit record states and each contract entry point
as a function `State → Except ContractError State`.  Soroban aborts an
invocation and rolls back every storage write when the entry point
returns an error, so the `Except` encoding (error ⇒ caller keeps the old
state) is the contract-visible transaction semantics.  Addresses and
64-bit ids are modelled as `Nat`; the `i128` amount type is modelled as
`Int` with explicit range checks for the `checked_add` / `checked_sub`
operations the source uses.
-/

/-- Error enumeration: union of the `ContractError` enums of the
risk-pool and claims contracts (variants are mapped one-to-one by the
`From` conversions in the source) plus the oracle error kinds named by
the spec. -/
inductive ContractError where
  | Unauthorized
  | Paused
  | InvalidInput
  | InsufficientFunds
  | NotFound
  | AlreadyExists
  | InvalidState
  | NotInitialized
  | AlreadyInitialized
  | InvalidRole
  | RoleNotFound
  | NotTrustedContract
  | OracleValidationFailed
  | InsufficientOracleSubmissions
  | OracleDataStale
  | ConsensusNotReached
  | DuplicateSubmission
  | LiquidityViolation
  | InvalidClaimState
  | InvalidAmount
  | CoverageExceeded
  | Overflow
deriving DecidableEq, Repr

/-- Lower bound of the `i128` range. -/
def i128Lo : Int := -(2 ^ 127)

/-- Upper bound of the `i128` range. -/
def i128Hi : Int := 2 ^ 127 - 1

/-- `i128::checked_add`: `none` exactly when the mathematical sum leaves
the `i128` range. -/
def checked_add (a b : Int) : Option Int :=
  if i128Lo ≤ a + b ∧ a + b ≤ i128Hi then some (a + b) else none

/-- `i128::checked_sub`: `none` exactly when the mathematical difference
leaves the `i128` range. -/
def checked_sub (a b : Int) : Option Int :=
  if i128Lo ≤ a - b ∧ a - b ≤ i128Hi then some (a - b) else none

/-- Key-value lookup in an association-list model of contract storage. -/
def mget {α : Type} : List (Nat × α) → Nat → Option α
  | [], _ => none
  | (k', v) :: rest, k => if k' = k then some v else mget rest k

/-- Key-value update (`storage.set`). -/
def mset {α : Type} : List (Nat × α) → Nat → α → List (Nat × α)
  | [], k, v => [(k, v)]
  | (k', v') :: rest, k, v =>
      if k' = k then (k, v) :: rest else (k', v') :: mset rest k v

/-- Key removal (`storage.remove`). -/
def mdel {α : Type} : List (Nat × α) → Nat → List (Nat × α)
  | [], _ => []
  | (k', v') :: rest, k =>
      if k' = k then mdel rest k else (k', v') :: mdel rest k

/-- Protocol roles (`authorization::Role`). -/
inductive Role where
  | Admin
  | Governance
  | RiskPoolManager
  | PolicyManager
  | ClaimProcessor
  | User
deriving DecidableEq, Repr

/-- `Role::can_process_claims`. -/
def can_process_claims (r : Role) : Bool :=
  match r with
  | .Admin => true
  | .ClaimProcessor => true
  | _ => false

/-- `Role::can_manage_risk_pool`. -/
def can_manage_risk_pool (r : Role) : Bool :=
  match r with
  | .Admin => true
  | .RiskPoolManager => true
  | _ => false

/-- Authorization storage of one contract instance: the contract admin,
the identity→role map and the trusted-contract allowlist
(`RoleKey::ContractAdmin`, `RoleKey::UserRole`, `RoleKey::TrustedContract`). -/
structure AuthState where
  admin : Option Nat
  roles : List (Nat × Role)
  trusted : List (Nat × Bool)
deriving DecidableEq, Repr

/-- `authorization::get_role`: absence defaults to `User`. -/
def get_role (a : AuthState) (addr : Nat) : Role :=
  (mget a.roles addr).getD .User

/-- `authorization::require_role`. -/
def require_role (a : AuthState) (addr : Nat) (required : Role) :
    Except ContractError Unit :=
  if get_role a addr = required then .ok () else .error .Unauthorized

/-- `authorization::require_admin`. -/
def require_admin (a : AuthState) (addr : Nat) : Except ContractError Unit :=
  require_role a addr .Admin

/-- `authorization::grant_role` (admin only; no self-target guard). -/
def grant_role (a : AuthState) (caller target : Nat) (role : Role) :
    Except ContractError AuthState :=
  match require_role a caller .Admin with
  | .error e => .error e
  | .ok _ => .ok { a with roles := mset a.roles target role }

/-- `authorization::revoke_role` (admin only; rejects self-revocation;
resets the target to `User`). -/
def revoke_role (a : AuthState) (caller target : Nat) :
    Except ContractError AuthState :=
  match require_role a caller .Admin with
  | .error e => .error e
  | .ok _ =>
      if caller = target then .error .Unauthorized
      else .ok { a with roles := mset a.roles target .User }

/-- `authorization::initialize_admin`. -/
def init_admin (a : AuthState) (addr : Nat) : AuthState :=
  { a with admin := some addr, roles := mset a.roles addr .Admin }

/-- `authorization::is_trusted_contract`: absence defaults to `false`. -/
def is_trusted_contract (a : AuthState) (addr : Nat) : Bool :=
  (mget a.trusted addr).getD false

/-- `authorization::require_trusted_contract`. -/
def require_trusted_contract (a : AuthState) (addr : Nat) :
    Except ContractError Unit :=
  if is_trusted_contract a addr then .ok () else .error .NotTrustedContract

/-- `authorization::register_trusted_contract` (admin only). -/
def register_trusted (a : AuthState) (caller addr : Nat) :
    Except ContractError AuthState :=
  match require_admin a caller with
  | .error e => .error e
  | .ok _ => .ok { a with trusted := mset a.trusted addr true }

/-- The `POOL_STATS` record, stored in the source as the positional
tuple `(i128, i128, i128, u64)`.  `liq` is component `.0`
(total liquidity), `paid` is `.1` (total paid out), `res` is `.2`, and
`cnt` is `.3` (provider count). -/
structure PoolStats where
  liq : Int
  paid : Int
  res : Int
  cnt : Nat
deriving DecidableEq, Repr

/-- One `PROVIDER` record, stored as `(i128, i128, u64)`: components
`.0`, `.1` (the stake figure compared against the configured minimum)
and the join timestamp. -/
structure ProviderInfo where
  prin : Int
  cum : Int
  ts : Nat
deriving DecidableEq, Repr

/-- Storage of the risk-pool contract: pause flag, `CONFIG`
(token address, minimum provider stake), `POOL_STATS`, per-provider
records, the `RESERVED_TOTAL` counter, per-claim `CLAIM_RESERVATION`
records, and the contract's authorization storage. -/
structure PoolState where
  paused : Bool
  config : Option (Nat × Int)
  poolStats : Option PoolStats
  providers : List (Nat × ProviderInfo)
  reservedTotal : Option Int
  claimReservations : List (Nat × Int)
  auth : AuthState
deriving DecidableEq, Repr

/-- `validate_amount` (invariant I4): amounts must be strictly positive. -/
def validate_amount (amount : Int) : Except ContractError Unit :=
  if amount ≤ 0 then .error .InvalidAmount else .ok ()

/-- `check_liquidity_invariant` (invariant I1): the stored total
liquidity must be at least the `RESERVED_TOTAL` counter (absent counter
defaults to 0); errors `NotFound` when `POOL_STATS` is absent. -/
def check_liquidity_invariant (s : PoolState) : Except ContractError Unit :=
  match s.poolStats with
  | none => .error .NotFound
  | some stats =>
      if stats.liq < s.reservedTotal.getD 0 then .error .LiquidityViolation
      else .ok ()

/-- Shared tail of every pool mutation: run the I1 re-check on the
proposed state and commit it only on success. -/
def commitChecked (s' : PoolState) : Except ContractError PoolState :=
  match check_liquidity_invariant s' with
  | .error e => .error e
  | .ok _ => .ok s'

/-- `RiskPoolContract::deposit_liquidity`.  `now` is
`env.ledger().timestamp()`. -/
def deposit_liquidity (s : PoolState) (now provider : Nat) (amount : Int) :
    Except ContractError PoolState :=
  if s.paused then .error .Paused
  else match validate_amount amount with
  | .error e => .error e
  | .ok _ =>
    match s.config with
    | none => .error .NotInitialized
    | some cfg =>
      let pi := (mget s.providers provider).getD ⟨0, 0, now⟩
      if pi.cum + amount < cfg.2 then .error .InvalidInput
      else match s.poolStats with
      | none => .error .NotFound
      | some stats =>
        match checked_add pi.prin amount, checked_add pi.cum amount,
              checked_add stats.liq amount, checked_add stats.res amount with
        | some p0, some p1, some l, some r =>
            commitChecked
              { s with
                providers := mset s.providers provider ⟨p0, p1, pi.ts⟩,
                poolStats := some { stats with liq := l, res := r } }
        | _, _, _, _ => .error .Overflow

/-- `RiskPoolContract::reserve_liquidity`. -/
def reserve_liquidity (s : PoolState) (caller claimId : Nat) (amount : Int) :
    Except ContractError PoolState :=
  match require_trusted_contract s.auth caller with
  | .error e => .error e
  | .ok _ =>
    if s.paused then .error .Paused
    else match validate_amount amount with
    | .error e => .error e
    | .ok _ =>
      if (mget s.claimReservations claimId).isSome then .error .AlreadyExists
      else match s.poolStats with
      | none => .error .NotFound
      | some stats =>
        let reserved := s.reservedTotal.getD 0
        match checked_sub stats.liq reserved with
        | none => .error .Overflow
        | some available =>
          if available < amount then .error .InsufficientFunds
          else match checked_add reserved amount with
          | none => .error .Overflow
          | some newReserved =>
              commitChecked
                { s with
                  reservedTotal := some newReserved,
                  claimReservations := mset s.claimReservations claimId amount }

/-- `RiskPoolContract::payout_reserved_claim`. -/
def payout_reserved_claim (s : PoolState) (caller claimId _recipient : Nat) :
    Except ContractError PoolState :=
  match require_trusted_contract s.auth caller with
  | .error e => .error e
  | .ok _ =>
    if s.paused then .error .Paused
    else match s.poolStats with
    | none => .error .NotFound
    | some stats =>
      let reserved := s.reservedTotal.getD 0
      match mget s.claimReservations claimId with
      | none => .error .NotFound
      | some amount =>
        if amount ≤ 0 then .error .InvalidState
        else if reserved < amount then .error .InvalidState
        else if stats.liq < amount then .error .InsufficientFunds
        else match checked_sub reserved amount, checked_sub stats.liq amount,
                   checked_add stats.paid amount with
        | some newReserved, some l, some p =>
            commitChecked
              { s with
                reservedTotal := some newReserved,
                claimReservations := mdel s.claimReservations claimId,
                poolStats := some { stats with liq := l, paid := p } }
        | _, _, _ => .error .Overflow

/-- `RiskPoolContract::payout_claim` (direct manager payout). -/
def payout_claim (s : PoolState) (manager _recipient : Nat) (amount : Int) :
    Except ContractError PoolState :=
  if can_manage_risk_pool (get_role s.auth manager) = false then
    .error .Unauthorized
  else if s.paused then .error .Paused
  else match validate_amount amount with
  | .error e => .error e
  | .ok _ =>
    match s.poolStats with
    | none => .error .NotFound
    | some stats =>
      let reserved := s.reservedTotal.getD 0
      match checked_sub stats.liq reserved with
      | none => .error .Overflow
      | some available =>
        if available < amount then .error .InsufficientFunds
        else match checked_sub stats.liq amount, checked_add stats.paid amount with
        | some l, some p =>
            commitChecked { s with poolStats := some { stats with liq := l, paid := p } }
        | _, _ => .error .Overflow

/-- The empty (pre-deployment) pool storage. -/
def emptyPool : PoolState :=
  { paused := false, config := none, poolStats := none, providers := [],
    reservedTotal := none, claimReservations := [],
    auth := { admin := none, roles := [], trusted := [] } }

/-- `RiskPoolContract::initialize`. -/
def init_pool (s : PoolState) (admin xlmToken : Nat) (minStake : Int)
    (claimsContract : Nat) : Except ContractError PoolState :=
  if s.auth.admin.isSome then .error .AlreadyInitialized
  else if minStake ≤ 0 then .error .InvalidInput
  else
    let a1 := init_admin s.auth admin
    match register_trusted a1 admin claimsContract with
    | .error e => .error e
    | .ok a2 =>
        .ok { s with
              auth := a2,
              config := some (xlmToken, minStake),
              poolStats := some ⟨0, 0, 0, 0⟩ }

/-- The risk-pool operation language of the spec's invariant property:
deposit, reserve, reserved payout, direct payout. -/
inductive PoolOp where
  | deposit (now provider : Nat) (amount : Int)
  | reserve (caller claimId : Nat) (amount : Int)
  | payoutReserved (caller claimId recipient : Nat)
  | payout (manager recipient : Nat) (amount : Int)
deriving DecidableEq, Repr

/-- Run one pool entry point. -/
def runPoolOp (s : PoolState) : PoolOp → Except ContractError PoolState
  | .deposit now provider amount => deposit_liquidity s now provider amount
  | .reserve caller claimId amount => reserve_liquidity s caller claimId amount
  | .payoutReserved caller claimId recipient =>
      payout_reserved_claim s caller claimId recipient
  | .payout manager recipient amount => payout_claim s manager recipient amount

/-- Transactional commit of one pool entry point: an error keeps the
pre-call storage (Soroban rolls back a failed invocation). -/
def applyPoolOp (s : PoolState) (op : PoolOp) : PoolState × Option ContractError :=
  match runPoolOp s op with
  | .ok s' => (s', none)
  | .error e => (s, some e)

/-- Run a sequence of pool operations, committing each in turn. -/
def runPoolOps (s : PoolState) : List PoolOp → PoolState
  | [] => s
  | op :: ops => runPoolOps (applyPoolOp s op).1 ops

/-- Invariant I1 as a boolean state predicate: whenever `POOL_STATS` is
stored, its total-liquidity figure dominates the `RESERVED_TOTAL`
counter. -/
def liquidityOkB (s : PoolState) : Bool :=
  match s.poolStats with
  | none => true
  | some stats => decide (s.reservedTotal.getD 0 ≤ stats.liq)

/-- `ClaimStatus` from the shared `insurance_contracts::types` library. -/
inductive ClaimStatus where
  | Submitted
  | UnderReview
  | Approved
  | Rejected
  | Settled
deriving DecidableEq, Repr

/-- `is_valid_state_transition` (invariant I3): the exhaustive
whitelist of legal claim-status transitions; every other pair is
rejected. -/
def is_valid_state_change (current next : ClaimStatus) : Bool :=
  match current, next with
  | .Submitted, .UnderReview => true
  | .UnderReview, .Approved => true
  | .UnderReview, .Rejected => true
  | .Approved, .Settled => true
  | _, _ => false

/-- One `CLAIM` record, stored as
`(policy_id, claimant, amount, status, timestamp)`. -/
structure ClaimRec where
  policyId : Nat
  claimant : Nat
  amount : Int
  status : ClaimStatus
  time : Nat
deriving DecidableEq, Repr

/-- `OracleValidationConfig` of the claims contract. -/
structure OracleValidationCfg where
  oracleContract : Nat
  requireOracleValidation : Bool
  minOracleSubmissions : Nat
deriving DecidableEq, Repr

/-- Combined state of a claims-contract instance together with the
risk-pool instance it calls into, the read-only policy records served
by the policy contract, and the ledger environment (`sequence` and
`timestamp`, both fixed within one ledger). -/
structure SysState where
  pool : PoolState
  cPaused : Bool
  cAuth : AuthState
  cConfig : Option (Nat × Nat)
  claims : List (Nat × ClaimRec)
  policyClaims : List (Nat × Nat)
  oracleCfg : Option OracleValidationCfg
  claimOracle : List (Nat × Nat)
  policies : List (Nat × (Nat × Int))
  claimsAddr : Nat
  ledgerSeq : Nat
  now : Nat
deriving DecidableEq, Repr

/-- `ClaimsContract::submit_claim`: identity check, pause check, policy
fetch, ownership check, duplicate-claim check, amount/coverage check,
then stores the claim under id `ledger sequence + 1`. -/
def submit_claim (s : SysState) (claimant policyId : Nat) (amount : Int) :
    Except ContractError (Nat × SysState) :=
  if s.cPaused then .error .Paused
  else match s.cConfig with
  | none => .error .NotInitialized
  | some _ =>
    match mget s.policies policyId with
    | none => .error .NotFound
    | some pol =>
      if pol.1 ≠ claimant then .error .Unauthorized
      else if (mget s.policyClaims policyId).isSome then .error .AlreadyExists
      else if amount ≤ 0 ∨ pol.2 < amount then .error .InvalidInput
      else
        let claimId := s.ledgerSeq + 1
        .ok (claimId,
          { s with
            claims := mset s.claims claimId
              ⟨policyId, claimant, amount, .Submitted, s.now⟩,
            policyClaims := mset s.policyClaims policyId claimId })

/-- `ClaimsContract::start_review`. -/
def start_review (s : SysState) (processor claimId : Nat) :
    Except ContractError SysState :=
  if can_process_claims (get_role s.cAuth processor) = false then
    .error .Unauthorized
  else match mget s.claims claimId with
  | none => .error .NotFound
  | some claim =>
    if is_valid_state_change claim.status .UnderReview = false then
      .error .InvalidClaimState
    else
      .ok { s with claims := mset s.claims claimId { claim with status := .UnderReview } }

/-- `ClaimsContract::approve_claim`: permission check, state-change
check, positivity check, optional oracle validation, trusted-contract
check, then the cross-contract `reserve_liquidity` call on the risk
pool (made under the claims contract's own address); the status becomes
`Approved` only when the reservation succeeds. -/
def approve_claim (s : SysState) (processor claimId : Nat)
    (oracleDataId : Option Nat) : Except ContractError SysState :=
  if can_process_claims (get_role s.cAuth processor) = false then
    .error .Unauthorized
  else match mget s.claims claimId with
  | none => .error .NotFound
  | some claim =>
    if is_valid_state_change claim.status .Approved = false then
      .error .InvalidClaimState
    else if claim.amount ≤ 0 then .error .InvalidAmount
    else
      let afterOracle : Except ContractError SysState :=
        match s.oracleCfg with
        | none => .ok s
        | some ocfg =>
          if ocfg.requireOracleValidation then
            match oracleDataId with
            | none => .error .OracleValidationFailed
            | some oid =>
              match require_trusted_contract s.cAuth ocfg.oracleContract with
              | .error e => .error e
              | .ok _ =>
                  .ok { s with claimOracle := mset s.claimOracle claimId oid }
          else .ok s
      match afterOracle with
      | .error e => .error e
      | .ok s1 =>
        match s1.cConfig with
        | none => .error .NotInitialized
        | some cfg =>
          match require_trusted_contract s1.cAuth cfg.2 with
          | .error e => .error e
          | .ok _ =>
            match reserve_liquidity s1.pool s1.claimsAddr claimId claim.amount with
            | .error e => .error e
            | .ok pool' =>
                .ok { s1 with
                      pool := pool',
                      claims := mset s1.claims claimId { claim with status := .Approved } }

/-- `ClaimsContract::reject_claim`. -/
def reject_claim (s : SysState) (processor claimId : Nat) :
    Except ContractError SysState :=
  if can_process_claims (get_role s.cAuth processor) = false then
    .error .Unauthorized
  else match mget s.claims claimId with
  | none => .error .NotFound
  | some claim =>
    if is_valid_state_change claim.status .Rejected = false then
      .error .InvalidClaimState
    else
      .ok { s with claims := mset s.claims claimId { claim with status := .Rejected } }

/-- `ClaimsContract::settle_claim`: permission check, state-change
check, positivity check, trusted-contract check, then the
cross-contract `payout_reserved_claim` call; the status becomes
`Settled` only when the payout succeeds. -/
def settle_claim (s : SysState) (processor claimId : Nat) :
    Except ContractError SysState :=
  if can_process_claims (get_role s.cAuth processor) = false then
    .error .Unauthorized
  else match mget s.claims claimId with
  | none => .error .NotFound
  | some claim =>
    if is_valid_state_change claim.status .Settled = false then
      .error .InvalidClaimState
    else if claim.amount ≤ 0 then .error .InvalidAmount
    else match s.cConfig with
    | none => .error .NotInitialized
    | some cfg =>
      match require_trusted_contract s.cAuth cfg.2 with
      | .error e => .error e
      | .ok _ =>
        match payout_reserved_claim s.pool s.claimsAddr claimId claim.claimant with
        | .error e => .error e
        | .ok pool' =>
            .ok { s with
                  pool := pool',
                  claims := mset s.claims claimId { claim with status := .Settled } }

/-- `ClaimsContract::pause` (admin only). -/
def claims_pause (s : SysState) (admin : Nat) : Except ContractError SysState :=
  match require_admin s.cAuth admin with
  | .error e => .error e
  | .ok _ => .ok { s with cPaused := true }

/-- `ClaimsContract::unpause` (admin only). -/
def claims_unpause (s : SysState) (admin : Nat) : Except ContractError SysState :=
  match require_admin s.cAuth admin with
  | .error e => .error e
  | .ok _ => .ok { s with cPaused := false }

/-- `ClaimsContract::initialize`. -/
def init_claims (s : SysState) (admin policyContract riskPool : Nat) :
    Except ContractError SysState :=
  if s.cAuth.admin.isSome then .error .AlreadyInitialized
  else
    let a1 := init_admin s.cAuth admin
    match register_trusted a1 admin policyContract with
    | .error e => .error e
    | .ok a2 =>
      match register_trusted a2 admin riskPool with
      | .error e => .error e
      | .ok a3 =>
          .ok { s with cAuth := a3, cConfig := some (policyContract, riskPool) }

/-- Claims-contract entry points as an operation language. -/
inductive ClaimOp where
  | submit (claimant policyId : Nat) (amount : Int)
  | review (processor claimId : Nat)
  | approve (processor claimId : Nat) (oracleDataId : Option Nat)
  | reject (processor claimId : Nat)
  | settle (processor claimId : Nat)
  | pauseC (admin : Nat)
  | unpauseC (admin : Nat)
deriving DecidableEq, Repr

/-- The lifecycle (status-transition) operations of the claim state
machine: review, approve, reject, settle. -/
def ClaimOp.isLifecycle : ClaimOp → Bool
  | .review _ _ => true
  | .approve _ _ _ => true
  | .reject _ _ => true
  | .settle _ _ => true
  | _ => false

/-- Run one claims entry point (discarding `submit_claim`'s returned id). -/
def runClaimOp (s : SysState) : ClaimOp → Except ContractError SysState
  | .submit claimant policyId amount =>
      match submit_claim s claimant policyId amount with
      | .error e => .error e
      | .ok (_, s') => .ok s'
  | .review processor claimId => start_review s processor claimId
  | .approve processor claimId oid => approve_claim s processor claimId oid
  | .reject processor claimId => reject_claim s processor claimId
  | .settle processor claimId => settle_claim s processor claimId
  | .pauseC admin => claims_pause s admin
  | .unpauseC admin => claims_unpause s admin

/-- Transactional commit of one claims entry point. -/
def applyClaimOp (s : SysState) (op : ClaimOp) : SysState × Option ContractError :=
  match runClaimOp s op with
  | .ok s' => (s', none)
  | .error e => (s, some e)

/-- Run a sequence of claims operations, committing each in turn. -/
def runClaimOps (s : SysState) : List ClaimOp → SysState
  | [] => s
  | op :: ops => runClaimOps (applyClaimOp s op).1 ops

/-- Status of a claim record in a system state. -/
def claimStatus (s : SysState) (claimId : Nat) : Option ClaimStatus :=
  (mget s.claims claimId).map ClaimRec.status

/-- The committed status changes of one claim along a run: the new
status is recorded whenever an applied operation changes it. -/
def statusChanges (s : SysState) (claimId : Nat) : List ClaimOp → List ClaimStatus
  | [] => []
  | op :: ops =>
      let s' := (applyClaimOp s op).1
      (if claimStatus s' claimId = claimStatus s claimId then []
       else (claimStatus s' claimId).toList) ++ statusChanges s' claimId ops

/-- One oracle submission: source identity, numeric value, timestamp. -/
structure OracleSubmission where
  source : Nat
  value : Int
  timestamp : Nat
deriving DecidableEq, Repr

/-- Oracle resolver configuration: minimum submission count, staleness
threshold, outlier deviation percentage, consensus-threshold
percentage. -/
structure OracleCfg where
  minSubmissions : Nat
  staleness : Nat
  deviationPct : Nat
  consensusPct : Nat
deriving DecidableEq, Repr

/-- The derived resolution record: consensus value, submission count,
accepted count, rejected count, finalization time. -/
structure OracleResolution where
  consensus : Int
  submissionCount : Nat
  acceptedCount : Nat
  rejectedCount : Nat
  finalizedAt : Nat
deriving DecidableEq, Repr

/-- Ascending sort of a value list (the resolver works on the sorted
multiset of submitted values, never on arrival order). -/
def sortVals (l : List Int) : List Int :=
  l.insertionSort (· ≤ ·)

/-- Median of a value list: middle element of the sorted list, the mean
of the two middle elements for an even count (integer division), 0 for
the empty list (the resolver never takes the median of an empty list
because of the minimum-submission gate). -/
def medianVal (l : List Int) : Int :=
  let sorted := sortVals l
  if sorted.length = 0 then 0
  else if sorted.length % 2 = 1 then sorted.getD (sorted.length / 2) 0
  else (sorted.getD (sorted.length / 2 - 1) 0 + sorted.getD (sorted.length / 2) 0) / 2

/-- A value is accepted when it deviates from the median by at most
`pct` percent of the median's magnitude. -/
def withinDeviation (pct : Nat) (median v : Int) : Bool :=
  100 * (v - median).natAbs ≤ pct * median.natAbs

/-- Modelled from the spec: the oracle consensus resolver
(`resolve_oracle_data`).  The repository contains no implementation of
the oracle contract — only comment-level tests describe it — so this
definition follows spec §4.5: duplicate submissions are rejected at
submission time (see `submit_oracle`), stale submissions (older than the
staleness threshold at resolution time) are dropped, the
minimum-submission gate runs next, each remaining submission is accepted
when within the configured percentage deviation of the median of the
remaining values, the accepted fraction must meet the consensus
threshold, and the consensus value is the median of the accepted
subset. -/
def resolve_oracle (cfg : OracleCfg) (now : Nat)
    (subs : List OracleSubmission) : Except ContractError OracleResolution :=
  let fresh := subs.filter (fun sub => now - sub.timestamp ≤ cfg.staleness)
  if fresh.length < cfg.minSubmissions then
    .error .InsufficientOracleSubmissions
  else
    let vals := fresh.map OracleSubmission.value
    let med := medianVal vals
    let accepted := vals.filter (withinDeviation cfg.deviationPct med)
    if accepted.length * 100 < cfg.consensusPct * vals.length then
      .error .ConsensusNotReached
    else
      .ok ⟨medianVal accepted, vals.length, accepted.length,
           vals.length - accepted.length, now⟩

/-- Modelled from the spec: duplicate-rejecting submission intake — a
second submission from a source already present for the data request
fails with `DuplicateSubmission`. -/
def submit_oracle (subs : List OracleSubmission) (sub : OracleSubmission) :
    Except ContractError (List OracleSubmission) :=
  if subs.any (fun old => old.source = sub.source) then
    .error .DuplicateSubmission
  else .ok (subs ++ [sub])

/-- Extract the success state of a pool call (used only to name
concrete scenario states; every theorem also asserts the call
succeeded). -/
def exOkPool (r : Except ContractError PoolState) : PoolState :=
  r.toOption.getD emptyPool

/-- Pool state of the deposit/reserve/payout scenario right after
`initialize(admin 100, token 200, min stake 1, claims contract 300)`. -/
def c4s0 : PoolState := exOkPool (init_pool emptyPool 100 200 1 300)

/-- Scenario state after provider 7 deposits 1,000,000. -/
def c4s1 : PoolState := exOkPool (deposit_liquidity c4s0 0 7 1000000)

/-- Scenario state after the claims contract (300) reserves 600,000 for
claim 1. -/
def c4s2 : PoolState := exOkPool (reserve_liquidity c4s1 300 1 600000)

/-- Scenario state after the reserved payout of claim 1 to
recipient 50. -/
def c4s3 : PoolState := exOkPool (payout_reserved_claim c4s2 300 1 50)

/-- Empty claims authorization storage. -/
def emptyAuth : AuthState := { admin := none, roles := [], trusted := [] }

/-- A funded pool whose trusted claims-contract address is 55. -/
def flowPool : PoolState :=
  exOkPool (deposit_liquidity (exOkPool (init_pool emptyPool 100 200 1 55)) 0 7 1000000)

/-- Pre-deployment claims system: ledger sequence 5, time 1000, two
policies (policy 1 owned by 10, policy 2 owned by 20, coverage 100
each), claims contract address 55, pool funded. -/
def sysEmpty : SysState :=
  { pool := flowPool, cPaused := false, cAuth := emptyAuth, cConfig := none,
    claims := [], policyClaims := [], oracleCfg := none, claimOracle := [],
    policies := [(1, (10, 100)), (2, (20, 100))], claimsAddr := 55,
    ledgerSeq := 5, now := 1000 }

/-- Extract the success state of a claims call. -/
def exOkSys (r : Except ContractError SysState) : SysState :=
  r.toOption.getD sysEmpty

/-- Claims system after `initialize(admin 100, policy contract 201,
risk pool 300)`. -/
def sysInit : SysState := exOkSys (init_claims sysEmpty 100 201 300)

/-- Claims system after claimant 10 submits a claim of 50 on policy 1
(assigned id 6 = ledger sequence 5 + 1). -/
def sysSub1 : SysState :=
  exOkSys (match submit_claim sysInit 10 1 50 with
           | .error e => .error e
           | .ok (_, s') => .ok s')

/-- Claims system after claimant 20 submits a claim of 70 on policy 2
in the same ledger (also assigned id 6 = ledger sequence 5 + 1). -/
def sysSub2 : SysState :=
  exOkSys (match submit_claim sysSub1 20 2 70 with
           | .error e => .error e
           | .ok (_, s') => .ok s')

/-- Claims system after the admin pauses the claims contract. -/
def sysPaused : SysState := exOkSys (claims_pause sysSub1 100)

deriving instance DecidableEq for Except

/-- The amount-positivity fact each pool operation validates before
committing (`payout_reserved_claim` validates the stored reservation
amount instead of an argument). -/
def opAmountOk : PoolOp → Bool
  | .deposit _ _ amount => decide (0 < amount)
  | .reserve _ _ amount => decide (0 < amount)
  | .payout _ _ amount => decide (0 < amount)
  | .payoutReserved _ _ _ => true

/-- The status a lifecycle operation attempts to set. -/
def ClaimOp.attempted : ClaimOp → Option ClaimStatus
  | .review _ _ => some .UnderReview
  | .approve _ _ _ => some .Approved
  | .reject _ _ => some .Rejected
  | .settle _ _ => some .Settled
  | _ => none

/-- The claim id a lifecycle operation targets. -/
def ClaimOp.targetClaim : ClaimOp → Option Nat
  | .review _ claimId => some claimId
  | .approve _ claimId _ => some claimId
  | .reject _ claimId => some claimId
  | .settle _ claimId => some claimId
  | _ => none

/-- The caller of a lifecycle operation. -/
def ClaimOp.caller : ClaimOp → Option Nat
  | .review processor _ => some processor
  | .approve processor _ _ => some processor
  | .reject processor _ => some processor
  | .settle processor _ => some processor
  | _ => none

/-- The remaining legal status path from a given status to `Settled`. -/
def chainFrom : ClaimStatus → List ClaimStatus
  | .Submitted => [.UnderReview, .Approved, .Settled]
  | .UnderReview => [.Approved, .Settled]
  | .Approved => [.Settled]
  | .Settled => []
  | .Rejected => []

/-- `checked_add` succeeds only with the mathematical sum. -/
theorem checked_add_some {a b c : Int} (h : checked_add a b = some c) :
    c = a + b := by
  unfold checked_add at h
  split at h
  · exact (Option.some.injEq _ _ ▸ h).symm
  · cases h

/-- `checked_sub` succeeds only with the mathematical difference. -/
theorem checked_sub_some {a b c : Int} (h : checked_sub a b = some c) :
    c = a - b := by
  unfold checked_sub at h
  split at h
  · exact (Option.some.injEq _ _ ▸ h).symm
  · cases h

/-- `validate_amount` succeeds only on positive amounts. -/
theorem validate_amount_ok {a : Int} {u : Unit}
    (h : validate_amount a = .ok u) : 0 < a := by
  unfold validate_amount at h
  split at h
  · cases h
  · omega

/-- Updating a key makes lookup at that key return the new value. -/
theorem mget_mset_self {α : Type} (m : List (Nat × α)) (k : Nat) (v : α) :
    mget (mset m k v) k = some v := by
  induction m with
  | nil => simp [mset, mget]
  | cons kv rest ih =>
      by_cases hk : kv.1 = k
      · simp [mset, hk, mget]
      · simp [mset, hk, mget, ih]

/-- Updating one key leaves lookup at any other key unchanged. -/
theorem mget_mset_ne {α : Type} (m : List (Nat × α)) (k k' : Nat) (v : α)
    (h : k ≠ k') : mget (mset m k v) k' = mget m k' := by
  induction m with
  | nil => simp [mset, mget, h]
  | cons kv rest ih =>
      by_cases hk : kv.1 = k
      · simp [mset, hk, mget, h]
      · simp only [mset, hk, if_false, mget]
        by_cases hk' : kv.1 = k'
        · simp [hk']
        · simp [hk', ih]

/-- A committed pool mutation satisfies the re-checked I1 predicate. -/
theorem commitChecked_ok {t s' : PoolState} (h : commitChecked t = .ok s') :
    s' = t ∧ liquidityOkB t = true := by
  unfold commitChecked at h
  unfold check_liquidity_invariant at h
  unfold liquidityOkB
  cases hps : t.poolStats with
  | none => rw [hps] at h; cases h
  | some stats =>
      rw [hps] at h
      dsimp only at h ⊢
      split at h
      · cases h
      · rename_i u heq
        have ht : t = s' := by injection h
        refine ⟨ht.symm, ?_⟩
        simp only [decide_eq_true_eq]
        split at heq
        · cases heq
        · rename_i hlt
          omega

/-- Every successful pool entry point ends in the I1 re-check, so its
committed state satisfies the liquidity predicate. -/
theorem runPoolOp_ok_liquidity (s : PoolState) (op : PoolOp) (s' : PoolState)
    (h : runPoolOp s op = .ok s') : liquidityOkB s' = true := by
  cases op with
  | deposit now provider amount =>
      unfold runPoolOp deposit_liquidity at h
      dsimp only at h
      repeat' split at h
      all_goals first
        | cases h
        | (obtain ⟨rfl, hok⟩ := commitChecked_ok h; exact hok)
  | reserve caller claimId amount =>
      unfold runPoolOp reserve_liquidity at h
      dsimp only at h
      repeat' split at h
      all_goals first
        | cases h
        | (obtain ⟨rfl, hok⟩ := commitChecked_ok h; exact hok)
  | payoutReserved caller claimId recipient =>
      unfold runPoolOp payout_reserved_claim at h
      dsimp only at h
      repeat' split at h
      all_goals first
        | cases h
        | (obtain ⟨rfl, hok⟩ := commitChecked_ok h; exact hok)
  | payout manager recipient amount =>
      unfold runPoolOp payout_claim at h
      dsimp only at h
      repeat' split at h
      all_goals first
        | cases h
        | (obtain ⟨rfl, hok⟩ := commitChecked_ok h; exact hok)

/-- Committing one pool operation preserves the liquidity predicate
(a failed call keeps the old state; a successful call re-established
it). -/
theorem applyPoolOp_liquidity (s : PoolState) (op : PoolOp)
    (h : liquidityOkB s = true) : liquidityOkB (applyPoolOp s op).1 = true := by
  cases hro : runPoolOp s op with
  | ok s' =>
      simp only [applyPoolOp, hro]
      exact runPoolOp_ok_liquidity s op s' hro
  | error e =>
      simp only [applyPoolOp, hro]
      exact h

/-- The liquidity predicate is preserved along any committed operation
sequence. -/
theorem runPoolOps_liquidity (ops : List PoolOp) :
    ∀ s, liquidityOkB s = true → liquidityOkB (runPoolOps s ops) = true := by
  induction ops with
  | nil => intro s h; exact h
  | cons op rest ih =>
      intro s h
      exact ih _ (applyPoolOp_liquidity s op h)

/-- A freshly initialized pool satisfies the liquidity predicate. -/
theorem init_pool_liquidity (admin xlm claimsC : Nat) (minStake : Int)
    (s0 : PoolState)
    (h : init_pool emptyPool admin xlm minStake claimsC = .ok s0) :
    liquidityOkB s0 = true := by
  unfold init_pool at h
  dsimp only at h
  repeat' split at h
  all_goals cases h
  all_goals rfl


/-- A successful pool call validated the positivity of its amount. -/
theorem runPoolOp_ok_amount (s : PoolState) (op : PoolOp) (s' : PoolState)
    (h : runPoolOp s op = .ok s') : opAmountOk op = true := by
  cases op with
  | deposit now provider amount =>
      unfold runPoolOp deposit_liquidity at h
      dsimp only at h
      split at h
      · cases h
      · split at h
        · cases h
        · rename_i u heq
          simp only [opAmountOk, decide_eq_true_eq]
          exact validate_amount_ok heq
  | reserve caller claimId amount =>
      unfold runPoolOp reserve_liquidity at h
      dsimp only at h
      split at h
      · cases h
      · split at h
        · cases h
        · split at h
          · cases h
          · rename_i u heq
            simp only [opAmountOk, decide_eq_true_eq]
            exact validate_amount_ok heq
  | payoutReserved caller claimId recipient => rfl
  | payout manager recipient amount =>
      unfold runPoolOp payout_claim at h
      dsimp only at h
      split at h
      · cases h
      · split at h
        · cases h
        · split at h
          · cases h
          · rename_i u heq
            simp only [opAmountOk, decide_eq_true_eq]
            exact validate_amount_ok heq

/-- C1: starting from an initialized pool, invariant I1
(`total_liquidity >= reserved_total`, the stored total-liquidity figure
versus the `RESERVED_TOTAL` counter) holds after every committed prefix
of any sequence of deposit / reserve / reserved-payout / direct-payout
operations. -/
theorem c1_liquidity_invariant (admin xlm claimsC : Nat) (minStake : Int)
    (s0 : PoolState)
    (hinit : init_pool emptyPool admin xlm minStake claimsC = .ok s0)
    (ops : List PoolOp) (n : Nat) :
    liquidityOkB (runPoolOps s0 (List.take n ops)) = true :=
  runPoolOps_liquidity (List.take n ops) s0
    (init_pool_liquidity admin xlm claimsC minStake s0 hinit)

/-- C1 witness: the invariant after the concrete deposit/reserve
prefix of the scenario pool. -/
theorem c1_liquidity_invariant_witness :
    liquidityOkB (runPoolOps c4s0
      (List.take 2 [.deposit 0 7 1000000, .reserve 300 1 600000])) = true :=
  c1_liquidity_invariant 100 200 300 1 c4s0 (by decide)
    [.deposit 0 7 1000000, .reserve 300 1 600000] 2

/-- C3: when a reservation record already exists for a claim id, a
second `reserve_liquidity` call for that id (trusted caller, unpaused
pool, positive amount) fails with `AlreadyExists`, and the committed
state — in particular the `RESERVED_TOTAL` counter and the existing
reservation record — is exactly the pre-call state. -/
theorem c3_reserve_exactly_once (s : PoolState) (caller claimId : Nat)
    (amount r : Int)
    (htr : is_trusted_contract s.auth caller = true)
    (hp : s.paused = false) (ha : 0 < amount)
    (hres : mget s.claimReservations claimId = some r) :
    reserve_liquidity s caller claimId amount = .error .AlreadyExists ∧
    (applyPoolOp s (.reserve caller claimId amount)).1 = s := by
  have hcall : reserve_liquidity s caller claimId amount = .error .AlreadyExists := by
    unfold reserve_liquidity require_trusted_contract validate_amount
    rw [htr, hp, hres]
    rw [if_neg (show ¬ amount ≤ 0 from by omega)]
    rfl
  refine ⟨hcall, ?_⟩
  simp only [applyPoolOp, runPoolOp, hcall]

/-- C3 witness: the scenario pool after reserving for claim 1 rejects a
second reservation for claim 1 and is left unchanged. -/
theorem c3_reserve_exactly_once_witness :
    reserve_liquidity c4s2 300 1 123 = .error .AlreadyExists ∧
    (applyPoolOp c4s2 (.reserve 300 1 123)).1 = c4s2 :=
  c3_reserve_exactly_once c4s2 300 1 123 600000 (by decide) (by decide)
    (by decide) (by decide)

/-- C4: from a freshly initialized pool, deposit 1,000,000; reserving
600,000 for claim 1 succeeds; reserving 500,000 for claim 2 then fails
with `InsufficientFunds` (available = 400,000); the reserved payout of
claim 1 removes the reservation, leaves the reserved-total counter at
0 and total liquidity at 400,000, and raises total paid out from 0 by
exactly 600,000. -/
theorem c4_scenario :
    init_pool emptyPool 100 200 1 300 = .ok c4s0 ∧
    deposit_liquidity c4s0 0 7 1000000 = .ok c4s1 ∧
    reserve_liquidity c4s1 300 1 600000 = .ok c4s2 ∧
    reserve_liquidity c4s2 300 2 500000 = .error .InsufficientFunds ∧
    payout_reserved_claim c4s2 300 1 50 = .ok c4s3 ∧
    c4s3.reservedTotal = some 0 ∧
    (c4s3.poolStats.map PoolStats.liq) = some 400000 ∧
    (c4s2.poolStats.map PoolStats.paid) = some 0 ∧
    (c4s3.poolStats.map PoolStats.paid) = some 600000 ∧
    mget c4s3.claimReservations 1 = none := by
  decide

/-- C6: every pool operation is all-or-nothing and validated against
its proposed new values: a call that returns an error commits exactly
the pre-call state, and a call that commits leaves a state satisfying
the re-checked I1 predicate, having validated positivity of the
operation's amount. -/
theorem c6_all_or_nothing (s : PoolState) (op : PoolOp) :
    ((applyPoolOp s op).2.isSome = true → (applyPoolOp s op).1 = s) ∧
    ((applyPoolOp s op).2 = none →
      liquidityOkB (applyPoolOp s op).1 = true ∧ opAmountOk op = true) := by
  cases hro : runPoolOp s op with
  | ok s' =>
      have h1 : applyPoolOp s op = (s', none) := by
        unfold applyPoolOp
        rw [hro]
      rw [h1]
      refine ⟨?_, ?_⟩
      · intro hc; cases hc
      · intro _
        exact ⟨runPoolOp_ok_liquidity s op s' hro, runPoolOp_ok_amount s op s' hro⟩
  | error e =>
      have h1 : applyPoolOp s op = (s, some e) := by
        unfold applyPoolOp
        rw [hro]
      rw [h1]
      refine ⟨fun _ => rfl, ?_⟩
      intro hc; cases hc

/-- C6 witness: the successful scenario reservation commits an
I1-satisfying state with a positive amount, and the failed
over-reservation commits nothing. -/
theorem c6_all_or_nothing_witness :
    (liquidityOkB (applyPoolOp c4s1 (.reserve 300 1 600000)).1 = true ∧
      opAmountOk (.reserve 300 1 600000) = true) ∧
    (applyPoolOp c4s2 (.reserve 300 2 500000)).1 = c4s2 :=
  ⟨(c6_all_or_nothing c4s1 (.reserve 300 1 600000)).2 (by decide),
   (c6_all_or_nothing c4s2 (.reserve 300 2 500000)).1 (by decide)⟩

/-- C7 counterexample: the claim "every other PoolStats field is
unchanged by the deposit" fails at a concrete input — a successful
deposit of 5 into the freshly initialized pool changes the third stored
stats field from 0 to 5. -/
theorem c7_counterexample :
    deposit_liquidity c4s0 0 7 5 =
      .ok { c4s0 with
            providers := [(7, ⟨5, 5, 0⟩)],
            poolStats := some ⟨5, 0, 5, 0⟩ } ∧
    (c4s0.poolStats.map PoolStats.res) = some 0 ∧
    ((exOkPool (deposit_liquidity c4s0 0 7 5)).poolStats.map PoolStats.res) = some 5 ∧
    (some (0 : Int) ≠ some (5 : Int)) := by
  decide

/-- C7 (amended): a successful `deposit_liquidity` increases the
provider's stake components and the stored total-liquidity figure by
exactly the amount, increases the third stored stats field by the same
amount, and leaves total-paid-out, provider-count, and every other pool
storage key (reserved-total counter, reservations, pause flag, config,
authorization data) unchanged. -/
theorem c7_amended_deposit_frame (s : PoolState) (now provider : Nat)
    (amount : Int) (s' : PoolState) (st : PoolStats)
    (h : deposit_liquidity s now provider amount = .ok s')
    (hst : s.poolStats = some st) :
    s'.poolStats = some { st with liq := st.liq + amount, res := st.res + amount } ∧
    mget s'.providers provider =
      some ⟨((mget s.providers provider).getD ⟨0, 0, now⟩).prin + amount,
            ((mget s.providers provider).getD ⟨0, 0, now⟩).cum + amount,
            ((mget s.providers provider).getD ⟨0, 0, now⟩).ts⟩ ∧
    s'.reservedTotal = s.reservedTotal ∧
    s'.claimReservations = s.claimReservations ∧
    s'.paused = s.paused ∧ s'.config = s.config ∧ s'.auth = s.auth := by
  unfold deposit_liquidity at h
  dsimp only at h
  repeat' split at h
  all_goals try cases h
  rename_i stats heqs x1 x2 x3 x4 p0 p1 l r h1 h2 h3 h4
  obtain ⟨rfl, _⟩ := commitChecked_ok h
  have hstats : stats = st := by
    rw [heqs] at hst
    injection hst
  subst hstats
  obtain rfl := checked_add_some h1
  obtain rfl := checked_add_some h2
  obtain rfl := checked_add_some h3
  obtain rfl := checked_add_some h4
  refine ⟨rfl, ?_, rfl, rfl, rfl, rfl, rfl⟩
  rw [mget_mset_self]

/-- C7 witness: the amended frame property at the concrete scenario
deposit. -/
theorem c7_amended_deposit_frame_witness :
    c4s1.poolStats = some ⟨0 + 1000000, 0, 0 + 1000000, 0⟩ ∧
    mget c4s1.providers 7 = some ⟨0 + 1000000, 0 + 1000000, 0⟩ ∧
    c4s1.reservedTotal = c4s0.reservedTotal ∧
    c4s1.claimReservations = c4s0.claimReservations ∧
    c4s1.paused = c4s0.paused ∧ c4s1.config = c4s0.config ∧
    c4s1.auth = c4s0.auth :=
  c7_amended_deposit_frame c4s0 0 7 1000000 c4s1 ⟨0, 0, 0, 0⟩
    (by decide) (by decide)

/-- C10: an Admin caller may target itself with `grant_role` and any
role: granting itself `User` succeeds and replaces its own Admin role,
after which `require_admin` for that identity fails with
`Unauthorized`; `revoke_role`'s self-revocation safeguard rejects the
same demotion attempted through `revoke_role`. -/
theorem c10_grant_role_self_demotion (a : AuthState) (caller : Nat)
    (h : get_role a caller = .Admin) :
    grant_role a caller caller .User =
      .ok { a with roles := mset a.roles caller .User } ∧
    get_role { a with roles := mset a.roles caller .User } caller = .User ∧
    require_admin { a with roles := mset a.roles caller .User } caller =
      .error .Unauthorized ∧
    revoke_role a caller caller = .error .Unauthorized := by
  have hrr : require_role a caller .Admin = .ok () := by
    unfold require_role
    rw [if_pos h]
  have hget : get_role { a with roles := mset a.roles caller .User } caller = .User := by
    unfold get_role
    show (mget (mset a.roles caller .User) caller).getD .User = .User
    rw [mget_mset_self]
    rfl
  refine ⟨?_, hget, ?_, ?_⟩
  · unfold grant_role
    rw [hrr]
  · unfold require_admin require_role
    rw [hget]
    rfl
  · unfold revoke_role
    rw [hrr, if_pos rfl]

/-- C10 witness: the self-demotion at a concrete one-admin
authorization state. -/
theorem c10_grant_role_self_demotion_witness :
    grant_role ⟨some 100, [(100, .Admin)], []⟩ 100 100 .User =
      .ok { admin := some 100, roles := mset [(100, .Admin)] 100 .User, trusted := [] } ∧
    get_role { admin := some 100, roles := mset [(100, .Admin)] 100 .User, trusted := [] } 100 = .User ∧
    require_admin { admin := some 100, roles := mset [(100, .Admin)] 100 .User, trusted := [] } 100 =
      .error .Unauthorized ∧
    revoke_role ⟨some 100, [(100, .Admin)], []⟩ 100 100 = .error .Unauthorized :=
  c10_grant_role_self_demotion ⟨some 100, [(100, .Admin)], []⟩ 100 (by decide)

/-- Sorting is invariant under permutation of the input values. -/
theorem sortVals_perm_eq {l l' : List Int} (hp : l.Perm l') :
    sortVals l = sortVals l' := by
  exact List.eq_of_perm_of_sorted
    ((List.perm_insertionSort (· ≤ ·) l).trans
      (hp.trans (List.perm_insertionSort (· ≤ ·) l').symm))
    (List.sorted_insertionSort (· ≤ ·) l)
    (List.sorted_insertionSort (· ≤ ·) l')

/-- The median is invariant under permutation of the input values. -/
theorem medianVal_perm_eq {l l' : List Int} (hp : l.Perm l') :
    medianVal l = medianVal l' := by
  unfold medianVal
  rw [sortVals_perm_eq hp]

/-- C9: oracle resolution depends only on the final submission set —
resolving any permutation of the submission list yields the same
outcome (same consensus value, same counts, or the same error). -/
theorem c9_oracle_order_independence (cfg : OracleCfg) (now : Nat)
    (subs subs' : List OracleSubmission) (hp : subs.Perm subs') :
    resolve_oracle cfg now subs = resolve_oracle cfg now subs' := by
  have hfresh :
      (subs.filter fun sub => now - sub.timestamp ≤ cfg.staleness).Perm
        (subs'.filter fun sub => now - sub.timestamp ≤ cfg.staleness) :=
    hp.filter _
  have hvals :
      ((subs.filter fun sub => now - sub.timestamp ≤ cfg.staleness).map
          OracleSubmission.value).Perm
        ((subs'.filter fun sub => now - sub.timestamp ≤ cfg.staleness).map
          OracleSubmission.value) :=
    hfresh.map _
  unfold resolve_oracle
  dsimp only
  rw [hfresh.length_eq, medianVal_perm_eq hvals, hvals.length_eq,
    (hvals.filter (withinDeviation cfg.deviationPct
      (medianVal ((subs'.filter fun sub =>
        now - sub.timestamp ≤ cfg.staleness).map OracleSubmission.value)))).length_eq,
    medianVal_perm_eq (hvals.filter (withinDeviation cfg.deviationPct
      (medianVal ((subs'.filter fun sub =>
        now - sub.timestamp ≤ cfg.staleness).map OracleSubmission.value))))]

/-- C9 witness: the spec's instance — submissions {100, 101, 102} and
{102, 101, 100} from the same three sources resolve identically (both
to consensus 101 with all three accepted). -/
theorem c9_oracle_order_independence_witness :
    resolve_oracle ⟨3, 1000, 15, 80⟩ 0
        [⟨1, 100, 0⟩, ⟨2, 101, 0⟩, ⟨3, 102, 0⟩] =
      resolve_oracle ⟨3, 1000, 15, 80⟩ 0
        [⟨3, 102, 0⟩, ⟨2, 101, 0⟩, ⟨1, 100, 0⟩] ∧
    resolve_oracle ⟨3, 1000, 15, 80⟩ 0
        [⟨1, 100, 0⟩, ⟨2, 101, 0⟩, ⟨3, 102, 0⟩] = .ok ⟨101, 3, 3, 0, 0⟩ :=
  ⟨c9_oracle_order_independence ⟨3, 1000, 15, 80⟩ 0
      [⟨1, 100, 0⟩, ⟨2, 101, 0⟩, ⟨3, 102, 0⟩]
      [⟨3, 102, 0⟩, ⟨2, 101, 0⟩, ⟨1, 100, 0⟩] (by decide),
   by decide⟩

/-- C5 counterexample: the claim "every state-mutating claims entry
point fails with Paused while paused" fails on a reachable state — with
the concrete claims contract paused, `start_review` still succeeds and
commits a status change. -/
theorem c5_counterexample :
    claims_pause sysSub1 100 = .ok sysPaused ∧
    sysPaused.cPaused = true ∧
    (start_review sysPaused 100 6).isOk = true ∧
    claimStatus sysPaused 6 = some .Submitted ∧
    claimStatus (exOkSys (start_review sysPaused 100 6)) 6 =
      some .UnderReview ∧
    (exOkSys (start_review sysPaused 100 6)).cPaused = true := by
  decide

/-- C5 (amended): only `submit_claim` consults the claims contract's
pause flag — while paused it fails with `Paused` (committing nothing),
whereas `start_review` and `reject_claim` never return `Paused` at all
(they do not read the flag), so mutations other than submission can
still commit while the contract is paused. -/
theorem c5_amended_pause_coverage :
    (∀ (s : SysState) (claimant policyId : Nat) (amount : Int),
      s.cPaused = true →
        submit_claim s claimant policyId amount = .error .Paused ∧
        (applyClaimOp s (.submit claimant policyId amount)).1 = s) ∧
    (∀ (s : SysState) (processor claimId : Nat),
      start_review s processor claimId ≠ .error .Paused) ∧
    (∀ (s : SysState) (processor claimId : Nat),
      reject_claim s processor claimId ≠ .error .Paused) := by
  refine ⟨?_, ?_, ?_⟩
  · intro s claimant policyId amount hpause
    have hcall : submit_claim s claimant policyId amount = .error .Paused := by
      unfold submit_claim
      rw [hpause]
      rfl
    refine ⟨hcall, ?_⟩
    simp only [applyClaimOp, runClaimOp, hcall]
  · intro s processor claimId hc
    unfold start_review at hc
    repeat' split at hc
    all_goals first
      | (injection hc with hc; cases hc)
      | cases hc
  · intro s processor claimId hc
    unfold reject_claim at hc
    repeat' split at hc
    all_goals first
      | (injection hc with hc; cases hc)
      | cases hc

/-- C5 amended witness: the paused concrete system rejects a
submission with `Paused` and commits nothing, and `start_review` on it
does not fail with `Paused`. -/
theorem c5_amended_pause_coverage_witness :
    (submit_claim sysPaused 10 1 50 = .error .Paused ∧
      (applyClaimOp sysPaused (.submit 10 1 50)).1 = sysPaused) ∧
    start_review sysPaused 100 6 ≠ .error .Paused :=
  ⟨c5_amended_pause_coverage.1 sysPaused 10 1 50 (by decide),
   c5_amended_pause_coverage.2.1 sysPaused 100 6⟩

/-- C8: claim ids collide within one ledger — with ledger sequence 5,
claimant 10's claim on policy 1 and claimant 20's claim on policy 2
both succeed with the same claim id 6, and the second submission
overwrites the claim record stored by the first. -/
theorem c8_claim_id_collision :
    submit_claim sysInit 10 1 50 = .ok (6, sysSub1) ∧
    submit_claim sysSub1 20 2 70 = .ok (6, sysSub2) ∧
    mget sysSub1.claims 6 = some ⟨1, 10, 50, .Submitted, 1000⟩ ∧
    mget sysSub2.claims 6 = some ⟨2, 20, 70, .Submitted, 1000⟩ := by
  decide

/-- A boolean known not to be `false` is `true`. -/
theorem bool_ne_false_eq_true {b : Bool} (h : ¬ b = false) : b = true := by
  cases b
  · exact absurd rfl h
  · rfl

/-- A committed claims call determines the post-call state. -/
theorem applyClaimOp_ok_state {s : SysState} {op : ClaimOp} {s' : SysState}
    (h : runClaimOp s op = .ok s') : (applyClaimOp s op).1 = s' := by
  unfold applyClaimOp
  rw [h]

/-- A failed claims call keeps the pre-call state. -/
theorem applyClaimOp_error_state {s : SysState} {op : ClaimOp}
    {e : ContractError} (h : runClaimOp s op = .error e) :
    (applyClaimOp s op).1 = s := by
  unfold applyClaimOp
  rw [h]

/-- Shape of every successful lifecycle call: it found the targeted
claim, its status change passed the `is_valid_state_transition`
whitelist, and the only claims-map write is that claim's new status. -/
theorem runClaimOp_ok_shape (s : SysState) (op : ClaimOp) (s' : SysState)
    (hl : op.isLifecycle = true) (hro : runClaimOp s op = .ok s') :
    ∃ claimId claim next, op.targetClaim = some claimId ∧
      mget s.claims claimId = some claim ∧
      is_valid_state_change claim.status next = true ∧
      s'.claims = mset s.claims claimId { claim with status := next } := by
  cases op with
  | submit claimant policyId amount => cases hl
  | pauseC admin => cases hl
  | unpauseC admin => cases hl
  | review processor claimId =>
      replace hro : start_review s processor claimId = .ok s' := hro
      unfold start_review at hro
      repeat' split at hro
      all_goals try cases hro
      all_goals refine ⟨claimId, _, .UnderReview, rfl, by assumption, ?_, rfl⟩
      all_goals exact bool_ne_false_eq_true (by assumption)
  | approve processor claimId oid =>
      replace hro : approve_claim s processor claimId oid = .ok s' := hro
      unfold approve_claim at hro
      dsimp only at hro
      cases hoc : s.oracleCfg with
      | none =>
          rw [hoc] at hro
          dsimp only at hro
          repeat' split at hro
          all_goals try cases hro
          all_goals refine ⟨claimId, _, .Approved, rfl, by assumption, ?_, rfl⟩
          all_goals exact bool_ne_false_eq_true (by assumption)
      | some ocfg =>
          rw [hoc] at hro
          dsimp only at hro
          repeat' split at hro
          all_goals try cases hro
          all_goals rename_i afterOracle s1 heqO xc vc heqc xu au hequ xp pool1 heqp
          all_goals repeat' split at heqO
          all_goals try cases heqO
          all_goals refine ⟨claimId, _, .Approved, rfl, by assumption, ?_, rfl⟩
          all_goals exact bool_ne_false_eq_true (by assumption)
  | reject processor claimId =>
      replace hro : reject_claim s processor claimId = .ok s' := hro
      unfold reject_claim at hro
      repeat' split at hro
      all_goals try cases hro
      all_goals refine ⟨claimId, _, .Rejected, rfl, by assumption, ?_, rfl⟩
      all_goals exact bool_ne_false_eq_true (by assumption)
  | settle processor claimId =>
      replace hro : settle_claim s processor claimId = .ok s' := hro
      unfold settle_claim at hro
      repeat' split at hro
      all_goals try cases hro
      all_goals refine ⟨claimId, _, .Settled, rfl, by assumption, ?_, rfl⟩
      all_goals exact bool_ne_false_eq_true (by assumption)

/-- Every whitelisted transition changes the status. -/
theorem valid_change_ne :
    ∀ a b, is_valid_state_change a b = true → a ≠ b := by
  intro a b
  cases a <;> cases b <;> decide

/-- One committed claims operation either leaves a claim's status
unchanged or moves it along the transition whitelist. -/
theorem lifecycle_status_step (s : SysState) (op : ClaimOp) (cid : Nat)
    (a : ClaimStatus) (hl : op.isLifecycle = true)
    (ha : claimStatus s cid = some a) :
    claimStatus (applyClaimOp s op).1 cid = some a ∨
    ∃ b, claimStatus (applyClaimOp s op).1 cid = some b ∧
      is_valid_state_change a b = true := by
  cases hro : runClaimOp s op with
  | error e =>
      left
      rw [applyClaimOp_error_state hro]
      exact ha
  | ok s' =>
      rw [applyClaimOp_ok_state hro]
      obtain ⟨cid', claim, next, _, hmc, hval, hclaims⟩ :=
        runClaimOp_ok_shape s op s' hl hro
      by_cases hcid : cid' = cid
      · subst hcid
        right
        have hstat : claim.status = a := by
          unfold claimStatus at ha
          rw [hmc] at ha
          simpa using ha
        refine ⟨next, ?_, hstat ▸ hval⟩
        unfold claimStatus
        rw [hclaims, mget_mset_self]
        rfl
      · left
        unfold claimStatus
        rw [hclaims, mget_mset_ne _ _ _ _ hcid]
        exact ha

/-- A claim in a terminal status (no outgoing whitelisted transition)
keeps that status along every lifecycle run, contributing no status
changes. -/
theorem terminal_status_stays (cid : Nat) (st : ClaimStatus)
    (hterm : ∀ b, is_valid_state_change st b = false) :
    ∀ (ops : List ClaimOp) (s : SysState),
      (∀ op ∈ ops, op.isLifecycle = true) →
      claimStatus s cid = some st →
      claimStatus (runClaimOps s ops) cid = some st ∧
        statusChanges s cid ops = [] := by
  intro ops
  induction ops with
  | nil => exact fun s _ h => ⟨h, rfl⟩
  | cons op rest ih =>
      intro s hl h
      have hop := hl op (List.mem_cons_self op rest)
      have hrest : ∀ o ∈ rest, o.isLifecycle = true :=
        fun o ho => hl o (List.mem_cons_of_mem op ho)
      rcases lifecycle_status_step s op cid st hop h with hsame | ⟨b, _, hv⟩
      · have heq : claimStatus (applyClaimOp s op).1 cid = claimStatus s cid := by
          rw [hsame, h]
        have ihh := ih (applyClaimOp s op).1 hrest hsame
        refine ⟨ihh.1, ?_⟩
        show (if claimStatus (applyClaimOp s op).1 cid = claimStatus s cid
              then ([] : List ClaimStatus)
              else (claimStatus (applyClaimOp s op).1 cid).toList) ++
             statusChanges (applyClaimOp s op).1 cid rest = []
        rw [if_pos heq, ihh.2]
        rfl
      · rw [hterm b] at hv
        cases hv

/-- A lifecycle run that ends with the claim `Settled` commits exactly
the remaining whitelist chain of status changes. -/
theorem settled_path (cid : Nat) :
    ∀ (ops : List ClaimOp) (s : SysState) (a : ClaimStatus),
      (∀ op ∈ ops, op.isLifecycle = true) →
      claimStatus s cid = some a →
      claimStatus (runClaimOps s ops) cid = some .Settled →
      statusChanges s cid ops = chainFrom a := by
  intro ops
  induction ops with
  | nil =>
      intro s a _ ha hfin
      have hc : some a = some ClaimStatus.Settled := ha.symm.trans hfin
      injection hc with hc
      subst hc
      rfl
  | cons op rest ih =>
      intro s a hl ha hfin
      have hop := hl op (List.mem_cons_self op rest)
      have hrest : ∀ o ∈ rest, o.isLifecycle = true :=
        fun o ho => hl o (List.mem_cons_of_mem op ho)
      have hfin' : claimStatus (runClaimOps (applyClaimOp s op).1 rest) cid =
          some .Settled := hfin
      rcases lifecycle_status_step s op cid a hop ha with hsame | ⟨b, hb, hv⟩
      · have heq : claimStatus (applyClaimOp s op).1 cid = claimStatus s cid := by
          rw [hsame, ha]
        have ihh := ih (applyClaimOp s op).1 a hrest hsame hfin'
        show (if claimStatus (applyClaimOp s op).1 cid = claimStatus s cid
              then ([] : List ClaimStatus)
              else (claimStatus (applyClaimOp s op).1 cid).toList) ++
             statusChanges (applyClaimOp s op).1 cid rest = chainFrom a
        rw [if_pos heq, ihh]
        rfl
      · have hne : claimStatus (applyClaimOp s op).1 cid ≠ claimStatus s cid := by
          rw [hb, ha]
          intro hc
          injection hc with hc
          exact valid_change_ne a b hv hc.symm
        have ihh := ih (applyClaimOp s op).1 b hrest hb hfin'
        show (if claimStatus (applyClaimOp s op).1 cid = claimStatus s cid
              then ([] : List ClaimStatus)
              else (claimStatus (applyClaimOp s op).1 cid).toList) ++
             statusChanges (applyClaimOp s op).1 cid rest = chainFrom a
        rw [if_neg hne, hb, ihh]
        cases a <;> cases b <;>
          first
            | exact Bool.noConfusion hv
            | rfl
            | (have hstay := (terminal_status_stays cid .Rejected
                  (fun b => by cases b <;> rfl)
                  rest (applyClaimOp s op).1 hrest hb).1
               rw [hstay] at hfin'
               exact absurd hfin' (by decide))

/-- C2 counterexample: approving a claim whose status is `Submitted`
fails, but with the invalid-transition error `InvalidClaimState`
(code 102), not the `InvalidState` error (code 7) the claim names. -/
theorem c2_counterexample :
    approve_claim sysSub1 100 6 none = .error .InvalidClaimState ∧
    ContractError.InvalidClaimState ≠ ContractError.InvalidState := by
  decide

/-- C2 (amended): `Settled` is reachable only via the exact committed
status chain Submitted → UnderReview → Approved → Settled of the
lifecycle operations, and any lifecycle operation attempting a
non-whitelisted transition (processor authorized, claim present) fails
with `InvalidClaimState` — the invalid-transition error — leaving the
state (in particular the claim's status) unchanged. -/
theorem c2_amended_lifecycle :
    (∀ (s : SysState) (claimId : Nat) (ops : List ClaimOp),
      (∀ op ∈ ops, op.isLifecycle = true) →
      claimStatus s claimId = some .Submitted →
      claimStatus (runClaimOps s ops) claimId = some .Settled →
      statusChanges s claimId ops = [.UnderReview, .Approved, .Settled]) ∧
    (∀ (s : SysState) (op : ClaimOp) (processor claimId : Nat)
        (next a : ClaimStatus),
      op.isLifecycle = true →
      op.caller = some processor →
      op.targetClaim = some claimId →
      op.attempted = some next →
      can_process_claims (get_role s.cAuth processor) = true →
      claimStatus s claimId = some a →
      is_valid_state_change a next = false →
      runClaimOp s op = .error .InvalidClaimState ∧
        (applyClaimOp s op).1 = s) := by
  constructor
  · intro s claimId ops hl h0 hfin
    exact settled_path claimId ops s .Submitted hl h0 hfin
  · intro s op processor claimId next a hl hcall htc hat hcan ha hinv
    obtain ⟨claim, hmc, hstat⟩ : ∃ c, mget s.claims claimId = some c ∧
        c.status = a := by
      unfold claimStatus at ha
      cases hmc : mget s.claims claimId with
      | none => rw [hmc] at ha; cases ha
      | some c =>
          rw [hmc] at ha
          exact ⟨c, rfl, by simpa using ha⟩
    cases op with
    | submit claimant policyId amount => cases hl
    | pauseC admin => cases hl
    | unpauseC admin => cases hl
    | review p0 cid0 =>
        injection hcall with hp
        subst hp
        injection htc with htc
        subst htc
        injection hat with hat
        subst hat
        have hmain : start_review s p0 cid0 = .error .InvalidClaimState := by
          unfold start_review
          rw [hcan, if_neg (fun hcc => Bool.noConfusion hcc), hmc]
          dsimp only
          rw [hstat, if_pos hinv]
        exact ⟨hmain, applyClaimOp_error_state hmain⟩
    | approve p0 cid0 oid =>
        injection hcall with hp
        subst hp
        injection htc with htc
        subst htc
        injection hat with hat
        subst hat
        have hmain : approve_claim s p0 cid0 oid = .error .InvalidClaimState := by
          unfold approve_claim
          rw [hcan, if_neg (fun hcc => Bool.noConfusion hcc), hmc]
          dsimp only
          rw [hstat, if_pos hinv]
        exact ⟨hmain, applyClaimOp_error_state hmain⟩
    | reject p0 cid0 =>
        injection hcall with hp
        subst hp
        injection htc with htc
        subst htc
        injection hat with hat
        subst hat
        have hmain : reject_claim s p0 cid0 = .error .InvalidClaimState := by
          unfold reject_claim
          rw [hcan, if_neg (fun hcc => Bool.noConfusion hcc), hmc]
          dsimp only
          rw [hstat, if_pos hinv]
        exact ⟨hmain, applyClaimOp_error_state hmain⟩
    | settle p0 cid0 =>
        injection hcall with hp
        subst hp
        injection htc with htc
        subst htc
        injection hat with hat
        subst hat
        have hmain : settle_claim s p0 cid0 = .error .InvalidClaimState := by
          unfold settle_claim
          rw [hcan, if_neg (fun hcc => Bool.noConfusion hcc), hmc]
          dsimp only
          rw [hstat, if_pos hinv]
        exact ⟨hmain, applyClaimOp_error_state hmain⟩

/-- C2 witness: the concrete submitted claim reaches `Settled` exactly
through review, approval and settlement. -/
theorem c2_amended_lifecycle_witness :
    statusChanges sysSub1 6 [.review 100 6, .approve 100 6 none, .settle 100 6] =
      [.UnderReview, .Approved, .Settled] :=
  c2_amended_lifecycle.1 sysSub1 6
    [.review 100 6, .approve 100 6 none, .settle 100 6]
    (by decide) (by decide) (by decide)
